import Mathlib

/-!
Verification development for a layered NestJS/TypeORM CRUD service over a
single `Blog` (article) entity.  The TypeScript source is shallowly embedded:
the TypeORM-backed entity store becomes an explicit `Store` state (a list of
records plus an id counter and a clock), each TypeORM repository primitive
(`find`, `findOne`, `create`, `save`, `delete`, `update`) becomes a pure
function on `Store`, and the repository / service / controller layers are
translated method by method from `blog.repository.ts`, `blog.service.ts`
and `blog.controller.ts`.  JavaScript truthiness, which the service and
controller use on resolved result objects, is embedded via a `JsVal` type.
-/

/-- The `Blog` entity of `src/database/entities/blog.entity.ts`:
generated integer primary key `id`, a `name` column, `created_at` /
`updated_at` lifecycle timestamps and a nullable soft-delete timestamp
`deleted_at`.  Timestamps are modelled as naturals (ticks of a clock). -/
structure Article where
  id : Nat
  name : String
  updated_at : Nat
  created_at : Nat
  deleted_at : Option Nat
deriving Repr, DecidableEq

/-- The state of the backing entity store for `Blog`: the stored records, the
next value of the generated-id sequence, and the current clock value used for
timestamp columns. -/
structure Store where
  articles : List Article
  nextId : Nat
  now : Nat
deriving Repr, DecidableEq

/-- Fields the create endpoint supplies; per the spec only `name` is
meaningful today. -/
structure CreateFields where
  name : String
deriving Repr, DecidableEq

/-- A freshly instantiated (not yet persisted) entity as produced by TypeORM
`repository.create(data)`: the caller-supplied columns are set, the generated
columns are not yet assigned. -/
structure PreArticle where
  name : String
deriving Repr, DecidableEq

/-- Modelled from the spec: the `UpdateArticleDto` of `request.dto.ts` is not
present in the source tree; per the spec (PATCH body `\x7bname?, ...\x7d`,
data model: `name` is the sole mutable column) it carries an optional
`name`. -/
structure UpdateFields where
  name : Option String
deriving Repr, DecidableEq

/-- TypeORM `DeleteResult`: carries the number of rows the delete touched. -/
structure DeleteResult where
  affected : Nat
deriving Repr, DecidableEq

/-- TypeORM `UpdateResult`: carries the number of rows the update touched. -/
structure UpdateResult where
  affected : Nat
deriving Repr, DecidableEq

/-- TypeORM `repository.find()`: all stored records. -/
def ormFind (st : Store) : List Article :=
  st.articles

/-- TypeORM `repository.findOne(\x7bwhere : \x7bid\x7d\x7d)`: the first stored
record whose `id` column matches, or `null` (here `none`) when none does;
it resolves rather than throwing in the not-found case. -/
def ormFindOne (st : Store) (i : Nat) : Option Article :=
  st.articles.find? (fun a => a.id == i)

/-- TypeORM `repository.create(data)`: instantiate an entity from the given
field set; no store access, no generated columns yet. -/
def ormCreate (data : CreateFields) : PreArticle :=
  ⟨data.name⟩

/-- TypeORM `repository.save(entity)` for a new entity: assigns the generated
primary key from the id sequence, sets `created_at` and `updated_at` to the
current time (`deleted_at` stays null), inserts the record and returns the
persisted record including the generated fields. -/
def ormSave (st : Store) (p : PreArticle) : Store × Article :=
  let a : Article := ⟨st.nextId, p.name, st.now, st.now, none⟩
  (⟨st.articles ++ [a], st.nextId + 1, st.now⟩, a)

/-- TypeORM `repository.delete(\x7bid\x7d)`: hard-removes every record whose
`id` matches and reports the number of rows affected. -/
def ormDelete (st : Store) (i : Nat) : Store × DeleteResult :=
  let remaining := st.articles.filter (fun a => a.id != i)
  (⟨remaining, st.nextId, st.now⟩, ⟨st.articles.length - remaining.length⟩)

/-- Apply an update field set to one record: set `name` when supplied and
refresh the `UpdateDateColumn` `updated_at`; all other columns keep their
values. -/
def applyUpdate (d : UpdateFields) (now : Nat) (a : Article) : Article :=
  { a with name := d.name.getD a.name, updated_at := now }

/-- TypeORM `repository.update(\x7bid\x7d, data)`: applies the partial field
set to every record matching the criteria and reports the number of rows
affected (it does not return the updated record). -/
def ormUpdate (st : Store) (i : Nat) (d : UpdateFields) : Store × UpdateResult :=
  let affected := st.articles.countP (fun a => a.id == i)
  (⟨st.articles.map (fun a => if a.id == i then applyUpdate d st.now a else a),
    st.nextId, st.now⟩, ⟨affected⟩)

/-- `BlogRepository.getArticles`: `return this.blogrepository.find()`. -/
def BlogRepository.getArticles (st : Store) : List Article :=
  ormFind st

/-- `BlogRepository.getArticleById(blogid)`:
`return this.blogrepository.findOne(\x7bwhere : \x7bid : blogid\x7d\x7d)`. -/
def BlogRepository.getArticleById (st : Store) (blogid : Nat) : Option Article :=
  ormFindOne st blogid

/-- `BlogRepository.postArticle(data)`:
`const article = this.blogrepository.create(data); return this.blogrepository.save(article)`. -/
def BlogRepository.postArticle (st : Store) (data : CreateFields) : Store × Article :=
  ormSave st (ormCreate data)

/-- `BlogRepository.deleteArticle(articleid)`:
`return this.blogrepository.delete(\x7bid : articleid\x7d)`. -/
def BlogRepository.deleteArticle (st : Store) (articleid : Nat) : Store × DeleteResult :=
  ormDelete st articleid

/-- `BlogRepository.updateArticle(articleId, data)`:
`const updated = this.blogrepository.update(\x7bid : articleId\x7d, data); return updated`. -/
def BlogRepository.updateArticle (st : Store) (articleId : Nat) (data : UpdateFields) :
    Store × UpdateResult :=
  ormUpdate st articleId data

/-- A JavaScript value, as far as truthiness and the shapes appearing in this
service are concerned. -/
inductive JsVal where
  | vundefined : JsVal
  | vnull : JsVal
  | vbool : Bool → JsVal
  | vnum : Int → JsVal
  | vstr : String → JsVal
  | vobj : List (String × JsVal) → JsVal
deriving Repr

/-- JavaScript truthiness: `undefined`, `null`, `false`, `0` and the empty
string are falsy; every object is truthy. -/
def JsVal.truthy : JsVal → Bool
  | .vundefined => false
  | .vnull => false
  | .vbool b => b
  | .vnum n => decide (n ≠ 0)
  | .vstr s => decide (s ≠ "")
  | .vobj _ => true

/-- A resolved TypeORM `DeleteResult` as the JavaScript object
`\x7braw, affected\x7d`. -/
def DeleteResult.toJs (r : DeleteResult) : JsVal :=
  .vobj [("raw", .vobj []), ("affected", .vnum r.affected)]

/-- A resolved TypeORM `UpdateResult` as the JavaScript object
`\x7braw, affected, generatedMaps\x7d`. -/
def UpdateResult.toJs (r : UpdateResult) : JsVal :=
  .vobj [("raw", .vobj []), ("affected", .vnum r.affected), ("generatedMaps", .vobj [])]

/-- The JavaScript object literal `\x7bsuccess : true\x7d`. -/
def successEnvelope : JsVal :=
  .vobj [("success", .vbool true)]

/-- `BlogService.deleteArticlebyId(id)`: awaits the repository delete; the
resolved value `approval` is tested for truthiness, and `\x7bsuccess : true\x7d`
is returned when it is truthy; otherwise the method falls off its end and the
promise resolves to `undefined`. -/
def BlogService.deleteArticlebyId (st : Store) (i : Nat) : Store × JsVal :=
  let r := BlogRepository.deleteArticle st i
  if (DeleteResult.toJs r.2).truthy then (r.1, successEnvelope)
  else (r.1, .vundefined)

/-- `BlogService.updateArticlebyId(id, data)`: awaits the repository update
and returns the resolved confirmation unchanged. -/
def BlogService.updateArticlebyId (st : Store) (i : Nat) (data : UpdateFields) :
    Store × UpdateResult :=
  BlogRepository.updateArticle st i data

/-- `BlogController.updateArticle` (the PATCH handler): awaits the service
update; if the resolved `result` is truthy it returns `\x7bsuccess : true\x7d`,
otherwise the handler produces no body (resolves to `undefined`). -/
def BlogController.updateArticle (st : Store) (data : UpdateFields) (i : Nat) :
    Store × JsVal :=
  let r := BlogService.updateArticlebyId st i data
  if (UpdateResult.toJs r.2).truthy then (r.1, successEnvelope)
  else (r.1, .vundefined)

/-- An entity-manager handle (a unit of work / transactional context),
identified abstractly. -/
structure EntityManager where
  mid : Nat
deriving Repr, DecidableEq

/-- A TypeORM `DataSource`: owns the default/global `manager`. -/
structure DataSource where
  manager : EntityManager
deriving Repr, DecidableEq

/-- A resolved store handle: a repository for an entity target, bound to the
entity manager that produced it (TypeORM `manager.getRepository(target)`
returns a repository whose manager is that manager).  Entity targets are
identified abstractly by a natural number. -/
structure StoreHandle where
  target : Nat
  manager : EntityManager
deriving Repr, DecidableEq

/-- TypeORM `entityManager.getRepository(entityTarget)`: a handle for that
target bound to this manager. -/
def EntityManager.getRepository (em : EntityManager) (t : Nat) : StoreHandle :=
  ⟨t, em⟩

/-- `BaseRepository.getEntityManager(entityManager?)` of `base.repository.ts`:
returns the supplied entity manager when one is given, otherwise the data
source's default manager. -/
def BaseRepository.getEntityManager (ds : DataSource) (em : Option EntityManager) :
    EntityManager :=
  match em with
  | some m => m
  | none => ds.manager

/-- `BaseRepository.getRepository(entityTarget, entityManager)` of
`base.repository.ts`: resolves the entity manager and asks it for the
repository of the target.  (The `entityManager` parameter is declared
non-optional in this method's signature but `getEntityManager` accepts its
absence, modelled with `Option`.)  The embedding is a pure function: the
operation has no effect beyond handle resolution. -/
def BaseRepository.getRepository (ds : DataSource) (t : Nat) (em : Option EntityManager) :
    StoreHandle :=
  (BaseRepository.getEntityManager ds em).getRepository t

/-- How a `BlogRepository` method can address the entity store: through the
`Repository<Blog>` member injected by `InjectRepository(Blog)` in its
constructor, or through a handle resolved by `BaseRepository.getRepository`. -/
inductive HandleSource where
  | injectedRepository : HandleSource
  | baseResolved : HandleSource
deriving Repr, DecidableEq

/-- The five persistence operations of `BlogRepository`. -/
inductive RepoOp where
  | getArticles : RepoOp
  | getArticleById : RepoOp
  | postArticle : RepoOp
  | deleteArticle : RepoOp
  | updateArticle : RepoOp
deriving Repr, DecidableEq

/-- Which store handle each `BlogRepository` method uses, read off the method
bodies of `blog.repository.ts`: every one of the five calls
`this.blogrepository.<op>(...)` on the injected member directly. -/
def BlogRepository.handleUsed : RepoOp → HandleSource
  | .getArticles => .injectedRepository
  | .getArticleById => .injectedRepository
  | .postArticle => .injectedRepository
  | .deleteArticle => .injectedRepository
  | .updateArticle => .injectedRepository

/-- The superclass of `class BlogRepository \x7b ... \x7d` in
`blog.repository.ts`: the declaration has no extends clause (it imports
`BaseRepository` but does not extend it). -/
def BlogRepository.superclass : Option String :=
  none

/-- A create/update input as an open field bag (the JSON body received at the
HTTP boundary), kept opaque: field names mapped to values. -/
abbrev FieldBag : Type :=
  List (String × String)

/-- The call the entity store receives at the bottom of the create/update
pipeline: `create(bag)` followed by `save` of that entity, or
`update(\x7bid\x7d, bag)`. -/
inductive StoreCall where
  | createSave : FieldBag → StoreCall
  | updateRows : Nat → FieldBag → StoreCall
deriving Repr, DecidableEq

/-- Bag-level trace of `BlogRepository.postArticle(data)`: the entity is
instantiated by `create(data)` from the bag unchanged and handed to `save`. -/
def BlogRepository.postArticleCall (data : FieldBag) : StoreCall :=
  .createSave data

/-- Bag-level trace of `BlogRepository.updateArticle(articleId, data)`: the
bag is handed unchanged to `update(\x7bid : articleId\x7d, data)`. -/
def BlogRepository.updateArticleCall (articleId : Nat) (data : FieldBag) : StoreCall :=
  .updateRows articleId data

/-- Bag-level trace of `BlogService.postArticle(data)`: delegates the bag
unchanged to the repository. -/
def BlogService.postArticleCall (data : FieldBag) : StoreCall :=
  BlogRepository.postArticleCall data

/-- Bag-level trace of `BlogService.updateArticlebyId(id, data)`: delegates
the id and bag unchanged to the repository. -/
def BlogService.updateArticlebyIdCall (i : Nat) (data : FieldBag) : StoreCall :=
  BlogRepository.updateArticleCall i data

/-- Bag-level trace of the POST handler `BlogController.postArticle`: the
received body is passed unchanged to the service. -/
def BlogController.postArticleCall (body : FieldBag) : StoreCall :=
  BlogService.postArticleCall body

/-- Bag-level trace of the PATCH handler `BlogController.updateArticle`: the
received body and id are passed unchanged to the service. -/
def BlogController.updateArticleCall (body : FieldBag) (i : Nat) : StoreCall :=
  BlogService.updateArticlebyIdCall i body

/-- Uniqueness of primary keys: the `id` columns of the stored records admit
no duplicate. -/
def idsUnique (st : Store) : Prop :=
  (st.articles.map Article.id).Nodup

/-- Freshness of the generated-id sequence: every stored record's `id` is
below the next value of the sequence. -/
def idsFresh (st : Store) : Prop :=
  ∀ a ∈ st.articles, a.id < st.nextId

lemma countP_id_beq (l : List Article) (i : Nat) :
    l.countP (fun a => a.id == i) = (l.map Article.id).count i := by
  rw [List.count, List.countP_map]
  rfl

lemma countP_id_of_nodup (l : List Article) (i : Nat)
    (h : (l.map Article.id).Nodup) :
    l.countP (fun a => a.id == i) = if ∃ a ∈ l, a.id = i then 1 else 0 := by
  rw [countP_id_beq]
  have hmem : (∃ a ∈ l, a.id = i) ↔ i ∈ l.map Article.id := by
    simp [List.mem_map, eq_comm]
  by_cases hx : ∃ a ∈ l, a.id = i
  · have hin : i ∈ l.map Article.id := hmem.mp hx
    have hle : (l.map Article.id).count i ≤ 1 :=
      List.nodup_iff_count_le_one.mp h i
    have hpos : 0 < (l.map Article.id).count i := List.count_pos_iff.mpr hin
    rw [if_pos hx]
    omega
  · rw [if_neg hx, List.count_eq_zero]
    intro hin
    exact hx (hmem.mpr hin)

lemma find?_id_append_single (l : List Article) (a : Article)
    (hl : ∀ b ∈ l, b.id ≠ a.id) :
    (l ++ [a]).find? (fun b => b.id == a.id) = some a := by
  rw [List.find?_append]
  have h1 : l.find? (fun b => b.id == a.id) = none := by
    rw [List.find?_eq_none]
    intro b hb
    simpa using hl b hb
  rw [h1]
  simp

lemma getArticleById_after_delete (st : Store) (i : Nat) :
    BlogRepository.getArticleById (BlogRepository.deleteArticle st i).1 i = none := by
  rw [BlogRepository.getArticleById, BlogRepository.deleteArticle, ormDelete, ormFindOne,
    List.find?_eq_none]
  intro a ha
  have := List.of_mem_filter ha
  simpa using this

/-- C1 (counterexample): on an empty store, deleting id 1 reports an affected
count of 0, yet `BlogService.deleteArticlebyId` still resolves to the
`\x7bsuccess : true\x7d` envelope rather than to `undefined`, because the
truthiness test `if (approval)` is applied to the resolved `DeleteResult`
object, which is truthy regardless of the count. -/
theorem C1_counterexample :
    (BlogRepository.deleteArticle ⟨[], 1, 0⟩ 1).2.affected = 0 ∧
    (BlogService.deleteArticlebyId ⟨[], 1, 0⟩ 1).2 = successEnvelope ∧
    successEnvelope ≠ JsVal.vundefined := by
  refine ⟨rfl, rfl, ?_⟩
  intro h
  exact JsVal.noConfusion h

/-- C1 (amended): for every store and id, `BlogService.deleteArticlebyId`
resolves to the `\x7bsuccess : true\x7d` envelope whenever the repository
delete resolves — including when the affected count is 0 — because the
no-envelope branch requires the resolved `DeleteResult` to be falsy, and a
JavaScript object never is. -/
theorem C1_delete_service_always_success (st : Store) (i : Nat) :
    (BlogService.deleteArticlebyId st i).2 = successEnvelope := rfl

/-- C2 (counterexample): the `getArticleById` operation of `BlogRepository`
addresses the injected `Repository<Blog>` member directly; it does not obtain
its handle through `BaseRepository.getRepository`. -/
theorem C2_counterexample :
    BlogRepository.handleUsed RepoOp.getArticleById = HandleSource.injectedRepository ∧
    HandleSource.injectedRepository ≠ HandleSource.baseResolved := by
  exact ⟨rfl, by decide⟩

/-- C2 (amended): none of the five `BlogRepository` operations factors
through the Generic Data-Access Base; each addresses the entity store
directly via the constructor-injected `Repository<Blog>` handle, and
`BlogRepository` does not extend `BaseRepository` (it only imports it). -/
theorem C2_all_ops_use_injected_handle :
    (∀ op : RepoOp, BlogRepository.handleUsed op = HandleSource.injectedRepository) ∧
    BlogRepository.superclass = none := by
  refine ⟨fun op => ?_, rfl⟩
  cases op <;> rfl

/-- C3: `BaseRepository.getRepository` resolves, for every entity target, the
handle bound to the supplied entity manager when one is given, and the handle
bound to the data source's default/global manager when none is; being a pure
function of its arguments, it performs no other effect. -/
theorem C3_resolve_store (ds : DataSource) (t : Nat) :
    (∀ m : EntityManager, BaseRepository.getRepository ds t (some m) = ⟨t, m⟩) ∧
    BaseRepository.getRepository ds t none = ⟨t, ds.manager⟩ := by
  exact ⟨fun m => rfl, rfl⟩

/-- C4: for every store and id, `BlogRepository.getArticleById` returns
either a single stored record whose `id` field equals the given id, or `none`
exactly when no stored record has that id; the operation is total, so the
not-found case never throws. -/
theorem C4_get_by_id_exact_or_absent (st : Store) (i : Nat) :
    (∀ a : Article, BlogRepository.getArticleById st i = some a →
      a ∈ st.articles ∧ a.id = i) ∧
    (BlogRepository.getArticleById st i = none ↔ ∀ a ∈ st.articles, a.id ≠ i) := by
  constructor
  · intro a h
    refine ⟨List.mem_of_find?_eq_some h, ?_⟩
    have hpa := List.find?_some h
    simpa using hpa
  · rw [BlogRepository.getArticleById, ormFindOne, List.find?_eq_none]
    constructor
    · intro h a ha
      simpa using h a ha
    · intro h a ha
      simpa using h a ha

/-- C4 (witness): instantiation of the theorem at a one-record store and the
absent id 9999999. -/
theorem C4_witness :
    (∀ a : Article, BlogRepository.getArticleById ⟨[⟨1, "a", 0, 0, none⟩], 2, 0⟩ 9999999 = some a →
      a ∈ (⟨[⟨1, "a", 0, 0, none⟩], 2, 0⟩ : Store).articles ∧ a.id = 9999999) ∧
    (BlogRepository.getArticleById ⟨[⟨1, "a", 0, 0, none⟩], 2, 0⟩ 9999999 = none ↔
      ∀ a ∈ (⟨[⟨1, "a", 0, 0, none⟩], 2, 0⟩ : Store).articles, a.id ≠ 9999999) :=
  C4_get_by_id_exact_or_absent ⟨[⟨1, "a", 0, 0, none⟩], 2, 0⟩ 9999999

/-- C7: for every store and create field set, deleting the id returned by the
create and immediately fetching that id yields the absent result. -/
theorem C7_delete_then_get_absent (st : Store) (f : CreateFields) :
    BlogRepository.getArticleById
      (BlogRepository.deleteArticle (BlogRepository.postArticle st f).1
        (BlogRepository.postArticle st f).2.id).1
      (BlogRepository.postArticle st f).2.id = none :=
  getArticleById_after_delete (BlogRepository.postArticle st f).1
    (BlogRepository.postArticle st f).2.id

/-- C9: for every store, id and update field set, the PATCH handler
`BlogController.updateArticle` returns the `\x7bsuccess : true\x7d` envelope
whenever the update resolves (including a zero-affected update), since the
no-body branch requires the resolved `UpdateResult` to be falsy and a
resolved result object is always truthy. -/
theorem C9_patch_always_success (st : Store) (d : UpdateFields) (i : Nat) :
    (BlogController.updateArticle st d i).2 = successEnvelope ∧
    ∀ r : UpdateResult, (UpdateResult.toJs r).truthy = true := by
  exact ⟨rfl, fun r => rfl⟩

/-- C10: for every field bag received at the HTTP boundary, the create
pipeline (controller → service → repository) hands exactly that bag to the
entity store's create/save call, and the update pipeline hands exactly the
received bag and id to the store's update call; no layer removes, rejects or
transforms a field. -/
theorem C10_field_bag_passthrough (body : FieldBag) (i : Nat) :
    BlogController.postArticleCall body = StoreCall.createSave body ∧
    BlogController.updateArticleCall body i = StoreCall.updateRows i body := by
  exact ⟨rfl, rfl⟩

/-- C5: for every store with unique primary keys and every id,
`BlogRepository.deleteArticle` removes exactly the records carrying that id
and reports affected count 1 when such a record existed and 0 when none did;
the not-found case yields count 0, no error. -/
theorem C5_delete_affected_count (st : Store) (i : Nat)
    (h : (st.articles.map Article.id).Nodup) :
    (BlogRepository.deleteArticle st i).1.articles
      = st.articles.filter (fun a => a.id != i) ∧
    (BlogRepository.deleteArticle st i).2.affected
      = if ∃ a ∈ st.articles, a.id = i then 1 else 0 := by
  refine ⟨rfl, ?_⟩
  show st.articles.length - (st.articles.filter (fun a => a.id != i)).length = _
  have hfil : (st.articles.filter (fun a => a.id != i)).length
      = st.articles.countP (fun a => ¬ (a.id == i)) := by
    rw [← List.countP_eq_length_filter]
    apply List.countP_congr
    intro a _
    simp [bne]
  rw [hfil, List.length_eq_countP_add_countP (fun a => a.id == i),
    countP_id_of_nodup st.articles i h, Nat.add_sub_cancel]

/-- C5 (witness): on a store holding the single record with id 1 and unique
ids, deleting id 1 removes it and reports affected count 1. -/
theorem C5_witness :
    (([⟨1, "a", 5, 5, none⟩] : List Article).map Article.id).Nodup ∧
    ((BlogRepository.deleteArticle ⟨[⟨1, "a", 5, 5, none⟩], 2, 6⟩ 1).1.articles
        = ([⟨1, "a", 5, 5, none⟩] : List Article).filter (fun a => a.id != 1) ∧
      (BlogRepository.deleteArticle ⟨[⟨1, "a", 5, 5, none⟩], 2, 6⟩ 1).2.affected
        = if ∃ a ∈ ([⟨1, "a", 5, 5, none⟩] : List Article), a.id = 1 then 1 else 0) :=
  ⟨by decide, C5_delete_affected_count ⟨[⟨1, "a", 5, 5, none⟩], 2, 6⟩ 1 (by decide)⟩

lemma map_id_save (st : Store) (p : PreArticle) :
    (ormSave st p).1.articles.map Article.id
      = st.articles.map Article.id ++ [st.nextId] := by
  simp [ormSave]

lemma map_id_update (st : Store) (i : Nat) (d : UpdateFields) :
    (ormUpdate st i d).1.articles.map Article.id = st.articles.map Article.id := by
  show (st.articles.map _).map Article.id = _
  rw [List.map_map]
  apply List.map_congr_left
  intro a _
  by_cases h : a.id == i <;> simp [h, applyUpdate, Function.comp]

/-- C6: for every store whose records all carry ids below the generated-id
sequence and every create field set, creating an article and fetching the id
the create returned yields exactly the persisted record; that record carries
the caller's `name` unchanged while the server-assigned fields are set: `id`
from the id sequence and `created_at` / `updated_at` to the insertion time
(in the model these are total fields, hence present and non-null). -/
theorem C6_create_then_get (st : Store) (f : CreateFields)
    (hfresh : ∀ a ∈ st.articles, a.id < st.nextId) :
    BlogRepository.getArticleById (BlogRepository.postArticle st f).1
        (BlogRepository.postArticle st f).2.id
      = some (BlogRepository.postArticle st f).2 ∧
    (BlogRepository.postArticle st f).2.name = (ormCreate f).name ∧
    (BlogRepository.postArticle st f).2.id = st.nextId ∧
    (BlogRepository.postArticle st f).2.created_at = st.now ∧
    (BlogRepository.postArticle st f).2.updated_at = st.now := by
  refine ⟨?_, rfl, rfl, rfl, rfl⟩
  show (st.articles ++ [(⟨st.nextId, f.name, st.now, st.now, none⟩ : Article)]).find?
      (fun b => b.id == (⟨st.nextId, f.name, st.now, st.now, none⟩ : Article).id)
    = some ⟨st.nextId, f.name, st.now, st.now, none⟩
  apply find?_id_append_single
  intro b hb
  exact Nat.ne_of_lt (hfresh b hb)

/-- C6 (witness): instantiation on the empty store at clock 5 with the field
set carrying name "Hello". -/
theorem C6_witness :
    (∀ a ∈ (⟨[], 0, 5⟩ : Store).articles, a.id < (⟨[], 0, 5⟩ : Store).nextId) ∧
    (BlogRepository.getArticleById (BlogRepository.postArticle ⟨[], 0, 5⟩ ⟨"Hello"⟩).1
        (BlogRepository.postArticle ⟨[], 0, 5⟩ ⟨"Hello"⟩).2.id
      = some (BlogRepository.postArticle ⟨[], 0, 5⟩ ⟨"Hello"⟩).2 ∧
    (BlogRepository.postArticle ⟨[], 0, 5⟩ ⟨"Hello"⟩).2.name = (ormCreate ⟨"Hello"⟩).name ∧
    (BlogRepository.postArticle ⟨[], 0, 5⟩ ⟨"Hello"⟩).2.id = (⟨[], 0, 5⟩ : Store).nextId ∧
    (BlogRepository.postArticle ⟨[], 0, 5⟩ ⟨"Hello"⟩).2.created_at = (⟨[], 0, 5⟩ : Store).now ∧
    (BlogRepository.postArticle ⟨[], 0, 5⟩ ⟨"Hello"⟩).2.updated_at = (⟨[], 0, 5⟩ : Store).now) :=
  ⟨by simp, C6_create_then_get ⟨[], 0, 5⟩ ⟨"Hello"⟩ (by simp)⟩

/-- C8: the `id` of an Article is assigned by the store at creation (the next
value of the generated-id sequence, not a caller field); on stores whose ids
are unique and below the sequence value, every repository operation preserves
uniqueness and freshness of ids; and `updateArticle` with any partial field
set leaves the `id` column of every record unchanged (it maps the stored
records to records with identically the same `id` list). -/
theorem C8_id_generated_unique_immutable (st : Store) (f : CreateFields)
    (i : Nat) (d : UpdateFields) (hu : idsUnique st) (hf : idsFresh st) :
    (BlogRepository.postArticle st f).2.id = st.nextId ∧
    idsUnique (BlogRepository.postArticle st f).1 ∧
    idsFresh (BlogRepository.postArticle st f).1 ∧
    idsUnique (BlogRepository.deleteArticle st i).1 ∧
    idsFresh (BlogRepository.deleteArticle st i).1 ∧
    (BlogRepository.updateArticle st i d).1.articles.map Article.id
      = st.articles.map Article.id ∧
    idsUnique (BlogRepository.updateArticle st i d).1 ∧
    idsFresh (BlogRepository.updateArticle st i d).1 := by
  unfold idsUnique idsFresh at *
  refine ⟨rfl, ?_, ?_, ?_, ?_, map_id_update st i d, ?_, ?_⟩
  · show ((ormSave st (ormCreate f)).1.articles.map Article.id).Nodup
    rw [map_id_save]
    rw [List.nodup_append]
    refine ⟨hu, List.nodup_singleton _, ?_⟩
    intro x hx hx1
    obtain ⟨b, hb, hbid⟩ := List.mem_map.mp hx
    have hblt := hf b hb
    have hx2 : x = st.nextId := List.mem_singleton.mp hx1
    omega
  · intro a ha
    show a.id < st.nextId + 1
    rcases List.mem_append.mp ha with hl | hr
    · exact Nat.lt_succ_of_lt (hf a hl)
    · rw [List.mem_singleton.mp hr]
      exact Nat.lt_succ_self _
  · show ((st.articles.filter (fun a => a.id != i)).map Article.id).Nodup
    exact List.Nodup.sublist ((List.filter_sublist st.articles).map Article.id) hu
  · intro a ha
    exact hf a (List.mem_of_mem_filter ha)
  · show (((ormUpdate st i d).1.articles).map Article.id).Nodup
    rw [map_id_update]
    exact hu
  · intro a ha
    obtain ⟨b, hb, hba⟩ := List.mem_map.mp ha
    have hblt := hf b hb
    show a.id < st.nextId
    rw [← hba]
    by_cases h : b.id == i <;> simp [h, applyUpdate] <;> exact hblt

/-- C8 (witness): instantiation on a store holding one record with id 1,
sequence value 2, updating id 1 with a new name. -/
theorem C8_witness :
    idsUnique ⟨[⟨1, "a", 0, 0, none⟩], 2, 3⟩ ∧
    idsFresh ⟨[⟨1, "a", 0, 0, none⟩], 2, 3⟩ ∧
    ((BlogRepository.postArticle ⟨[⟨1, "a", 0, 0, none⟩], 2, 3⟩ ⟨"b"⟩).2.id = 2 ∧
    idsUnique (BlogRepository.postArticle ⟨[⟨1, "a", 0, 0, none⟩], 2, 3⟩ ⟨"b"⟩).1 ∧
    idsFresh (BlogRepository.postArticle ⟨[⟨1, "a", 0, 0, none⟩], 2, 3⟩ ⟨"b"⟩).1 ∧
    idsUnique (BlogRepository.deleteArticle ⟨[⟨1, "a", 0, 0, none⟩], 2, 3⟩ 1).1 ∧
    idsFresh (BlogRepository.deleteArticle ⟨[⟨1, "a", 0, 0, none⟩], 2, 3⟩ 1).1 ∧
    (BlogRepository.updateArticle ⟨[⟨1, "a", 0, 0, none⟩], 2, 3⟩ 1 ⟨some "z"⟩).1.articles.map Article.id
      = ([⟨1, "a", 0, 0, none⟩] : List Article).map Article.id ∧
    idsUnique (BlogRepository.updateArticle ⟨[⟨1, "a", 0, 0, none⟩], 2, 3⟩ 1 ⟨some "z"⟩).1 ∧
    idsFresh (BlogRepository.updateArticle ⟨[⟨1, "a", 0, 0, none⟩], 2, 3⟩ 1 ⟨some "z"⟩).1) :=
  ⟨by unfold idsUnique; decide, by unfold idsFresh; decide,
    C8_id_generated_unique_immutable ⟨[⟨1, "a", 0, 0, none⟩], 2, 3⟩ ⟨"b"⟩ 1 ⟨some "z"⟩
      (by unfold idsUnique; decide) (by unfold idsFresh; decide)⟩
